import Mathlib

/-!
Verification development for the godefinfo resolution engine
(godefinfo.go). The file embeds, as executable Lean definitions:

- the definition descriptor produced by outputData / stringToDefInfo;
- the fragment of the go/types data model that the resolver inspects
  (named types with struct/interface underlying shapes, selections with
  embedding index paths), supplied by the external type-checking front
  end and therefore represented here as explicit input data;
- dereferenceType, typeName, getMethod, deepRecvType (godefinfo.go
  lines 329-395);
- the ordered case analysis of main after type checking
  (godefinfo.go lines 141-270);
- the source-importer cache logic of sourceImporterFrom.ImportFrom
  (godefinfo.go lines 435-488);
- pathEnclosingInterval and its visit search (godefinfo.go
  lines 496-593), over trees whose children lists play the role of the
  childrenOf enumeration (including synthetic token leaves).
-/

namespace Godefinfo

/-- DefInfo models the output record (defInfo in the structured-output
file): package import path, optional container type name, and symbol
name. An output of one part sets only Package; two parts set Package
and Name; three parts set all fields, per stringToDefInfo. -/
structure DefInfo where
  Package : String
  Container : String
  Name : String
deriving DecidableEq

/-- Ty models the go/types type shapes inspected by the resolver.
Named types live in an environment indexed by Nat. strucOf n and
ifaceOf n stand for the identity of the underlying struct/interface
object of named type n; go/types compares such objects by pointer
identity, and each named type owns exactly one underlying object, so
the index is that identity. sig0 models a signature whose Recv() is
nil; sigR r a signature with receiver type r. -/
inductive Ty where
  | ptr : Ty → Ty
  | named : Nat → Ty
  | strucOf : Nat → Ty
  | ifaceOf : Nat → Ty
  | basic : String → Ty
  | sig0 : Ty
  | sigR : Ty → Ty
  | other : Ty
deriving DecidableEq

/-- FieldDef models a struct field: name and type. -/
structure FieldDef where
  name : String
  ty : Ty
deriving DecidableEq

/-- IMethod models one entry of an interface's flattened method set as
go/types computes it (sorted, with methods contributed by embedded
interfaces included); recv is the method's recorded receiver type,
which the front end sets to the named interface the method is declared
in (or to the bare interface when the declaration is unnamed). -/
structure IMethod where
  name : String
  recv : Ty
deriving DecidableEq

/-- MethodDecl models one explicitly declared method of a named type
(the list Named.Method indexes): name and receiver type. -/
structure MethodDecl where
  name : String
  recv : Ty
deriving DecidableEq

/-- Underlying models the underlying type of a named type. -/
inductive Underlying where
  | struc : List FieldDef → Underlying
  | iface : List IMethod → Underlying
  | basicU : String → Underlying
deriving DecidableEq

/-- NamedDef models a named type: its name, package path, whether the
package top-level scope lookup of its name yields this very object
(the check main performs on the receiver), its underlying type, and its
explicitly declared methods. -/
structure NamedDef where
  name : String
  pkg : String
  topLevel : Bool
  under : Underlying
  methods : List MethodDecl
deriving DecidableEq

/-- Env is the arena of named types produced by the front end. -/
abbrev Env := List NamedDef

/-- underlyingTy env n models obj.Underlying() on the named type n. -/
def underlyingTy (env : Env) (n : Nat) : Ty :=
  match env.get? n with
  | some d =>
    match d.under with
    | .struc _ => .strucOf n
    | .iface _ => .ifaceOf n
    | .basicU b => .basic b
  | none => .other

/-- dereferenceType mirrors godefinfo.go lines 350-355: strip exactly
one pointer indirection if present. -/
def dereferenceType : Ty → Ty
  | .ptr t => t
  | t => t

/-- typeName mirrors godefinfo.go lines 357-365: a named type yields
its package path and name, a predeclared basic type yields the pseudo
package builtin and its name, anything else fails. -/
def typeName (env : Env) : Ty → Option (String × String)
  | .named n => (env.get? n).map fun d => (d.pkg, d.name)
  | .basic b => some ("builtin", b)
  | _ => none

/-- structFieldAt models obj.Field(idx) on the underlying struct of
named type n, yielding the field (none when n is not struct-kind or
the index is out of range, where the Go original would panic). -/
def structFieldAt (env : Env) (n idx : Nat) : Option FieldDef :=
  match env.get? n with
  | some d =>
    match d.under with
    | .struc fs => fs.get? idx
    | _ => none
  | none => none

/-- ifaceMethodAt models obj.Method(idx) on the underlying interface of
named type n (the flattened, sorted method set). -/
def ifaceMethodAt (env : Env) (n idx : Nat) : Option IMethod :=
  match env.get? n with
  | some d =>
    match d.under with
    | .iface ms => ms.get? idx
    | _ => none
  | none => none

/-- namedMethodAt models obj.Method(idx) on a named type: its idx-th
explicitly declared method. -/
def namedMethodAt (env : Env) (n idx : Nat) : Option MethodDecl :=
  (env.get? n).bind fun d => d.methods.get? idx

/-- memberAt dispatches on a non-named, non-pointer type exactly as the
Struct and Interface cases of the source getMethod do: a struct yields
field idx (its Type() is the field's type), an interface yields method
idx's receiver (its Type() is the receiver's type), anything else
yields nil. -/
def memberAt (env : Env) : Ty → Nat → Option Ty
  | .strucOf n, idx => (structFieldAt env n idx).map (·.ty)
  | .ifaceOf n, idx => (ifaceMethodAt env n idx).map (·.recv)
  | _, _ => none

/-- getMethod mirrors godefinfo.go lines 367-395. The result is the
Type() of the returned object (the only use deepRecvType makes of it).
The source's Named case recurses on obj.Underlying(); an underlying
type here is always a struct, interface, or basic shape (never a
pointer or a named type), so that recursive call lands in the
Struct/Interface/default cases, shared below as memberAt, keeping this
function structurally recursive. In the final-method interface branch
the source compares recvObj.Type() against obj.Underlying() by pointer
identity, modelled by equality with underlyingTy env n; when equal the
named interface itself is returned (its Type() is the named type),
otherwise the recorded receiver. Out-of-range indexing, which would
panic in Go but is never produced by the front end, yields none. -/
def getMethod (env : Env) : Ty → Nat → Bool → Bool → Option Ty
  | .ptr t, idx, final, method => getMethod env t idx final method
  | .named n, idx, final, method =>
    if final && method then
      match dereferenceType (underlyingTy env n) with
      | .ifaceOf _ =>
        match ifaceMethodAt env n idx with
        | some mm => if mm.recv = underlyingTy env n then some (.named n) else some mm.recv
        | none => none
      | _ => (namedMethodAt env n idx).map (·.recv)
    else memberAt env (underlyingTy env n) idx
  | t, idx, _, _ => memberAt env t idx

/-- SelKind models types.SelectionKind. -/
inductive SelKind where
  | fieldVal : SelKind
  | methodVal : SelKind
  | methodExpr : SelKind
deriving DecidableEq

/-- Selection models types.Selection as used here: its kind, static
receiver type, and embedding index path (Selection.Index). -/
structure Selection where
  kind : SelKind
  recv : Ty
  index : List Nat
deriving DecidableEq

/-- walkChain is the loop of deepRecvType: walk the given index list
hop by hop, where a hop is final exactly when it is the last entry of
the walked list. -/
def walkChain (env : Env) (method : Bool) : Ty → List Nat → Option Ty
  | typ, [] => some typ
  | typ, i :: rest =>
    match getMethod env typ i rest.isEmpty method with
    | none => none
    | some t => walkChain env method t rest

/-- deepRecvType mirrors godefinfo.go lines 329-348: offset is 0 for
method selections and 1 for field selections, the walked index list is
the selection index with its last offset entries dropped, and the
method flag passed to getMethod is kind not equal FieldVal. -/
def deepRecvType (env : Env) (sel : Selection) : Option Ty :=
  let offset : Nat := if sel.kind = .methodVal ∨ sel.kind = .methodExpr then 0 else 1
  walkChain env (sel.kind ≠ .fieldVal) sel.recv (sel.index.take (sel.index.length - offset))

/-- PNode models the kinds of syntax nodes the resolver's path
inspection distinguishes, with the payloads it reads: an identifier's
name, a selector's rightmost identifier name, an import spec's quoted
path literal, a type spec's declared name, and a composite literal's
type name when its type expression is an identifier or selector. -/
inductive PNode where
  | ident : String → PNode
  | selectorExpr : String → PNode
  | importSpec : String → PNode
  | field : PNode
  | fieldList : PNode
  | structType : PNode
  | typeSpec : String → PNode
  | compositeLit : Option String → PNode
  | genDecl : PNode
  | file : PNode
  | other : PNode
deriving DecidableEq

/-- Obj models the facets of a types.Object that the resolver reads:
package path, name, type, whether Parent() is the package scope,
whether the object is a struct field variable, and the imported path
when the object is a package name binding. Obj.Id() is modelled by the
plain name (the claims exercise exported names only). -/
structure Obj where
  pkg : String
  name : String
  ty : Ty
  parentIsPkgScope : Bool
  isField : Bool
  pkgNamePath : Option String
deriving DecidableEq

/-- Tables bundles the externally supplied binding-table answers for
one query: the Definitions and Uses entries of the located identifier,
the Selection recorded for the enclosing selector (if any), the Uses
entry of the selector's own identifier (for qualified references), the
two scope-membership checks main performs, and whether
types.LookupFieldOrMethod finds the member on the selection receiver. -/
structure Tables where
  defObj : Option Obj
  useObj : Option Obj
  selection : Option Selection
  selUseObj : Option Obj
  inPkgScope : Bool
  inUniverse : Bool
  memberFound : Bool
deriving DecidableEq

/-- out1 models a one-part outputData line: only Package is set. -/
def out1 (p : String) : DefInfo := ⟨p, "", ""⟩

/-- out2 models a two-part outputData line (such as objectString's
package-and-name form): Package and Name are set. -/
def out2 (p n : String) : DefInfo := ⟨p, "", n⟩

/-- out3 models a three-part outputData line: Package, Container and
Name are set. -/
def out3 (p c n : String) : DefInfo := ⟨p, c, n⟩

/-- unquoteInner consumes the characters after an opening double quote:
it succeeds when the closing double quote is the final character and no
interior character is a double quote or a backslash. -/
def unquoteInner : List Char → Option (List Char)
  | [] => none
  | [c] => if c = '"' then some [] else none
  | c :: rest => if c = '"' ∨ c = '\\' then none else (unquoteInner rest).map (c :: ·)

/-- Modelled collaborator (strconv.Unquote from the standard library,
called at godefinfo.go line 150): restricted to ordinary double-quoted
literals without escape sequences or backquotes, which covers every
path literal of an import the resolver meets; any other shape fails. -/
def gounquote (s : String) : Option String :=
  match s.toList with
  | '"' :: rest => (unquoteInner rest).map List.asString
  | _ => none

/-- importSpecAt1 models the import-statement guard of main (lines
148-157): the branch fires when the path has more than two nodes and
its second node is an import spec, whose quoted literal it yields. -/
def importSpecAt1 (nodes : List PNode) : Option String :=
  if nodes.length > 2 then
    match nodes.get? 1 with
    | some (.importSpec lit) => some lit
    | _ => none
  else none

/-- identAndSel models main lines 159-172: the located identifier's
name and whether an enclosing selector expression is in play. A leaf
selector contributes its own rightmost identifier; a leaf identifier
checks its parent for a selector. A path whose leaf is neither (the
source then reports no identifier found) yields none; an empty path,
impossible for the locator, likewise yields none where the source
would panic on the index. -/
def identAndSel (nodes : List PNode) : Option (String × Bool) :=
  match nodes.get? 0 with
  | some (.selectorExpr s) => some (s, true)
  | some (.ident nm) =>
    match nodes.get? 1 with
    | some (.selectorExpr _) => some (nm, true)
    | _ => some (nm, false)
  | _ => none

/-- resolveDefObj mirrors main lines 174-207, the branch taken when the
identifier defines an object: a receiverless signature is a top-level
function; a signature with a receiver is a method whose container is
the dereferenced receiver's named type (the source's type assertion
would panic on a non-named result, modelled as none); an object whose
parent is the package scope is a top-level definition; an identifier
whose parent node is a field and whose fifth path node is a type spec
is a struct field with that type spec's name as container; otherwise
the object's dereferenced type is described, and failing that the
source exits fatally (none). -/
def resolveDefObj (env : Env) (nodes : List PNode) (identName : String) (obj : Obj) :
    Option DefInfo :=
  match obj.ty with
  | .sig0 => some (out2 obj.pkg obj.name)
  | .sigR r =>
    match dereferenceType r with
    | .named n => (env.get? n).map fun d => out3 obj.pkg d.name identName
    | _ => none
  | _ =>
    if obj.parentIsPkgScope then some (out2 obj.pkg obj.name)
    else
      match nodes.get? 1, nodes.get? 4 with
      | some .field, some (.typeSpec tn) => some (out3 obj.pkg tn obj.name)
      | _, _ =>
        match typeName env (dereferenceType obj.ty) with
        | some (p, nm) => some (out2 p nm)
        | none => none

/-- structLitResult mirrors main lines 215-226: a used struct-field
variable whose third path node is a composite literal with an
identifier or selector type yields that literal type's name as
container. -/
def structLitResult (nodes : List PNode) (obj : Obj) : Option DefInfo :=
  if obj.isField then
    match nodes.get? 2 with
    | some (.compositeLit (some tn)) => some (out3 obj.pkg tn obj.name)
    | _ => none
  else none

/-- resolveUseObj mirrors main lines 215-270, the branch taken when the
identifier uses an object: first the composite-literal field case; then
a package-name binding yields its imported path; with no enclosing
selector, package-scope membership, then universe membership, then the
dereferenced-type description are tried in order, and when all fail the
source exits fatally (none); with an enclosing selector carrying a
recorded selection, deepRecvType's dereferenced result must be a named
type whose package-scope lookup yields it, else fatal; if the member
lookup found nothing the object's dereferenced type is described (fatal
when that fails too); otherwise the receiver's package, the receiver's
name and the identifier form the descriptor; with a selector but no
recorded selection, the selector identifier's own Uses entry is
described, else fatal. -/
def resolveUseObj (env : Env) (nodes : List PNode) (identName : String) (hasSel : Bool)
    (tb : Tables) (obj : Obj) : Option DefInfo :=
  match structLitResult nodes obj with
  | some r => some r
  | none =>
    match obj.pkgNamePath with
    | some p => some (out1 p)
    | none =>
      if !hasSel then
        if tb.inPkgScope then some (out2 obj.pkg obj.name)
        else if tb.inUniverse then some (out2 "builtin" obj.name)
        else
          match typeName env (dereferenceType obj.ty) with
          | some (p, nm) => some (out2 p nm)
          | none => none
      else
        match tb.selection with
        | some sel =>
          match (deepRecvType env sel).map dereferenceType with
          | some (.named n) =>
            match env.get? n with
            | some d =>
              if d.topLevel then
                if tb.memberFound then some (out3 d.pkg d.name identName)
                else
                  match typeName env (dereferenceType obj.ty) with
                  | some (p, nm) => some (out2 p nm)
                  | none => none
              else none
            | none => none
          | _ => none
        | none =>
          match tb.selUseObj with
          | some o => some (out2 o.pkg o.name)
          | none => none

/-- resolveQuery mirrors main lines 141-270 after type checking: the
branch for import specs, identifier extraction, the Definitions
branch, and the Uses branch; a missing Uses entry is the source's
fatal no type information exit. -/
def resolveQuery (env : Env) (nodes : List PNode) (tb : Tables) : Option DefInfo :=
  match importSpecAt1 nodes with
  | some lit => (gounquote lit).map out1
  | none =>
    match identAndSel nodes with
    | none => none
    | some (identName, hasSel) =>
      match tb.defObj with
      | some obj => resolveDefObj env nodes identName obj
      | none =>
        match tb.useObj with
        | none => none
        | some obj => resolveUseObj env nodes identName hasSel tb obj

/-!
Concrete fixture: the package p of the repository's test source, with
named-type ids T = 0, S = 1, P = 2, I = 3, J = 4, K = 5, L = 6. The
flattened interface method sets are listed in the sorted order go/types
produces (method ids compare as strings, so M11 < M12 < M8 < M9), each
with the named interface the front end records as its receiver type.
-/

/-- pEnv is the named-type arena for the test package p. -/
def pEnv : Env :=
  [⟨"T", "p", true,
    .struc [⟨"F0", .basic "int"⟩, ⟨"S", .named 1⟩, ⟨"P", .ptr (.named 2)⟩, ⟨"K", .named 5⟩],
    [⟨"M0", .named 0⟩, ⟨"M1", .ptr (.named 0)⟩, ⟨"M2", .named 0⟩,
     ⟨"M3", .ptr (.named 0)⟩, ⟨"M4", .named 0⟩, ⟨"M5", .ptr (.named 0)⟩]⟩,
   ⟨"S", "p", true, .struc [⟨"F1", .basic "int"⟩], [⟨"M6", .named 1⟩]⟩,
   ⟨"P", "p", true, .struc [⟨"I", .named 3⟩, ⟨"F2", .basic "int"⟩], [⟨"M7", .named 2⟩]⟩,
   ⟨"I", "p", true,
    .iface [⟨"M11", .named 6⟩, ⟨"M12", .named 6⟩, ⟨"M8", .named 3⟩, ⟨"M9", .named 4⟩], []⟩,
   ⟨"J", "p", true, .iface [⟨"M9", .named 4⟩], []⟩,
   ⟨"K", "p", true, .iface [⟨"M10", .named 5⟩], []⟩,
   ⟨"L", "p", true, .iface [⟨"M11", .named 6⟩, ⟨"M12", .named 6⟩], []⟩]

/-- selNodesFor s is the node path of a call-site member access whose
leaf is the selector expression with rightmost identifier s, followed
by its enclosing statement, block, declaration and file. -/
def selNodesFor (s : String) : List PNode :=
  [.selectorExpr s, .other, .other, .other, .file]

/-- tbUseSel builds the tables of a member-access query: no Definitions
entry, the given Uses object, the given recorded selection, and a
successful member lookup; the two scope checks are negative as they
are for member identifiers. -/
def tbUseSel (obj : Obj) (sel : Selection) : Tables :=
  ⟨none, some obj, some sel, none, false, false, true⟩

/-- objM11 is the Uses object of the interface method M11: a function
object with signature receiver L. -/
def objM11 : Obj := ⟨"p", "M11", .sigR (.named 6), false, false, none⟩

/-- objF1 is the Uses object of the promoted field F1 declared on S: a
field variable of basic type int. -/
def objF1 : Obj := ⟨"p", "F1", .basic "int", false, true, none⟩

/-- objF2 is the Uses object of the promoted field F2 declared on P. -/
def objF2 : Obj := ⟨"p", "F2", .basic "int", false, true, none⟩

/-!
Source importer cache (sourceImporterFrom.ImportFrom, godefinfo.go
lines 435-488). The system importer's answer and the from-source
type-check result are external collaborators, passed as explicit
inputs; the cache is an association list updated with Go map assignment
semantics.
-/

/-- GoPkg models a types.Package as the cache logic sees it: an
identity and its Complete() flag. -/
structure GoPkg where
  id : Nat
  complete : Bool
deriving DecidableEq

/-- ImpKey models importerPkgKey: import path and source directory. -/
abbrev ImpKey := String × String

/-- Cache models the cached map of sourceImporterFrom. -/
abbrev Cache := List (ImpKey × GoPkg)

/-- lookupCache models a Go map read: the entry for the key, if any. -/
def lookupCache (c : Cache) (k : ImpKey) : Option GoPkg :=
  (c.find? fun kv => kv.1 = k).map (·.2)

/-- storeCache models a Go map assignment: the new binding shadows any
previous binding for the same key. -/
def storeCache (c : Cache) (k : ImpKey) (p : GoPkg) : Cache :=
  (k, p) :: c.filter fun kv => ¬kv.1 = k

/-- importFrom mirrors ImportFrom: a non-nil system-importer package is
returned as is; otherwise a cached entry is served only when present
and complete; otherwise the package is type-checked from source (the
checkFresh input models that conf.Check call) and a non-nil result
overwrites the cache entry. The returned pair is the answer and the
cache afterwards. -/
def importFrom (sys checkFresh : Option GoPkg) (cache : Cache) (key : ImpKey) :
    Option GoPkg × Cache :=
  match sys with
  | some p => (some p, cache)
  | none =>
    match lookupCache cache key with
    | some p =>
      if p.complete then (some p, cache)
      else
        match checkFresh with
        | some q => (some q, storeCache cache key q)
        | none => (none, cache)
    | none =>
      match checkFresh with
      | some q => (some q, storeCache cache key q)
      | none => (none, cache)

/-!
Node locator (pathEnclosingInterval, godefinfo.go lines 496-593). A
Tree node carries the half-open position interval, whether it is a
synthetic token leaf, its resolver-visible kind, and its children in
the position-sorted order childrenOf produces (childrenOf itself is the
per-AST-kind enumeration of true subtrees plus synthetic token leaves;
its output is what the children list holds).
-/

/-- Tree is a syntax node as the locator sees it: position, end
position, token-leaf flag, resolver kind, children. -/
inductive Tree where
  | mk : Int → Int → Bool → PNode → List Tree → Tree

/-- pos is the node's starting position. -/
def Tree.pos : Tree → Int
  | .mk p _ _ _ _ => p

/-- endP is the node's one-past-the-end position. -/
def Tree.endP : Tree → Int
  | .mk _ e _ _ _ => e

/-- isTok is true for synthetic token leaves. -/
def Tree.isTok : Tree → Bool
  | .mk _ _ b _ _ => b

/-- kind is the node's resolver-visible kind. -/
def Tree.kind : Tree → PNode
  | .mk _ _ _ k _ => k

/-- children is the node's position-sorted child list. -/
def Tree.children : Tree → List Tree
  | .mk _ _ _ _ cs => cs

/-- LoopOut is the outcome of the child loop inside visit: no child
contained the interval (loop exhausted or the multi-child overlap break
fired, which flow to the same exactness check), the interval sits in
the gap between two children (inexact early return), a token leaf
matched (early return true), or the search descended into a child with
that child's own result. -/
inductive LoopOut where
  | noChild : LoopOut
  | gap : LoopOut
  | tokHit : LoopOut
  | descend : List Tree → Bool → LoopOut

mutual

/-- visit mirrors the closure visit of pathEnclosingInterval: clip the
interval to the node, search the children, and on no containing child
report an exact match only when the clipped interval equals the node's
own interval. The returned list is the visited path in root-first
order; the wrapper reverses it. -/
def visit : Tree → Int → Int → List Tree × Bool
  | t@(.mk pos endP _ _ cs), s0, e0 =>
    let s := if s0 < pos then pos else s0
    let e := if e0 > endP then endP else e0
    match visitLoop s e none cs with
    | .gap => ([t], false)
    | .tokHit => ([t], true)
    | .descend p ex => (t :: p, ex)
    | .noChild => ([t], decide (s = pos ∧ e = endP))

/-- visitLoop mirrors the for-loop over children: prevEnd is the end of
the preceding sibling (none for the first child, where the augmented
start is the child's own position); a child with a successor first
checks whether the interval lies wholly between it and the successor
(gap), then extends its augmented end to the successor's position; a
containing token leaf ends the search, a containing composite child is
descended into; an interval overlapping several children breaks out of
the loop, which like exhaustion reports no child. -/
def visitLoop (s e : Int) (prevEnd : Option Int) : List Tree → LoopOut
  | [] => .noChild
  | c :: rest =>
    let augPos := match prevEnd with | some p => p | none => c.pos
    match rest with
    | [] =>
      if augPos ≤ s ∧ e ≤ c.endP then
        if c.isTok then .tokHit
        else
          match visit c s e with
          | (p, ex) => .descend p ex
      else .noChild
    | nxt :: _ =>
      if s ≥ c.endP ∧ e ≤ nxt.pos then .gap
      else
        if augPos ≤ s ∧ e ≤ nxt.pos then
          if c.isTok then .tokHit
          else
            match visit c s e with
            | (p, ex) => .descend p ex
        else
          if s < c.endP ∧ e > nxt.pos then .noChild
          else visitLoop s e (some c.endP) rest

end

/-- pathEnclosingInterval mirrors godefinfo.go lines 571-593: a
reversed interval is normalised by swapping; an interval meeting the
root's interval is widened to one byte when degenerate and searched,
and the visited path is reversed (so the innermost node comes first);
an interval outside the root yields the root alone, inexact. -/
def pathEnclosingInterval (root : Tree) (start stop : Int) : List Tree × Bool :=
  let s := if start > stop then stop else start
  let e := if start > stop then start else stop
  if s < root.endP ∧ e > root.pos then
    let e' := if s = e then s + 1 else e
    let r := visit root s e'
    (r.1.reverse, r.2)
  else ([root], false)

/-- godefQuery composes the locator and the resolver the way main does:
the node path located for the one-byte window at the offset, projected
to resolver-visible kinds, drives the case analysis. -/
def godefQuery (env : Env) (root : Tree) (off : Int) (tb : Tables) : Option DefInfo :=
  resolveQuery env ((pathEnclosingInterval root off off).1.map Tree.kind) tb

/-- walkNF walks an index list with every hop non-final; it describes
the state of deepRecvType's loop before the final hop is taken. -/
def walkNF (env : Env) (method : Bool) : Ty → List Nat → Option Ty
  | typ, [] => some typ
  | typ, i :: rest =>
    match getMethod env typ i false method with
    | none => none
    | some t => walkNF env method t rest

/-- isSig tells whether a type is a signature (the shape main's first
Definitions switch matches on). -/
def Ty.isSig : Ty → Bool
  | .sig0 => true
  | .sigR _ => true
  | _ => false

/-- tbEmpty is a table bundle with every answer negative, for queries
whose branch never consults the tables. -/
def tbEmpty : Tables := ⟨none, none, none, none, false, false, false⟩

/-- tbDef builds the tables of a definition-site query: only the
Definitions entry is populated. -/
def tbDef (obj : Obj) : Tables := ⟨some obj, none, none, none, false, false, false⟩

/-- tbUseNoSel builds the tables of a bare use-site query (no enclosing
selector): the Uses entry and the two scope answers. -/
def tbUseNoSel (obj : Obj) (inPkg inUniv : Bool) : Tables :=
  ⟨none, some obj, none, none, inPkg, inUniv, false⟩

/-- demoChild is a composite child node spanning positions 2 to 8. -/
def demoChild : Tree := .mk 2 8 false .other []

/-- demoRoot is a file node spanning positions 0 to 10, with demoChild
as its only child. -/
def demoRoot : Tree := .mk 0 10 false .file [demoChild]

/-!
Shared lemmas about the locator and the embedding walk.
-/

/-- visit always reports the visited node first (before the wrapper's
reversal): every branch of its body returns a list headed by the node
itself. -/
theorem visit_head (t : Tree) (s0 e0 : Int) : (visit t s0 e0).1.head? = some t := by
  cases t with
  | mk p e tk k cs =>
    rw [visit]
    split <;> rfl

/-- walkChain on a list with its last element split off equals the
non-final walk of the prefix followed by one final getMethod hop. -/
theorem walkChain_append_last (env : Env) (m : Bool) (i : Nat) :
    ∀ (pre : List Nat) (typ : Ty),
      walkChain env m typ (pre ++ [i]) =
        (walkNF env m typ pre).bind fun u => getMethod env u i true m := by
  intro pre
  induction pre with
  | nil =>
    intro typ
    cases h : getMethod env typ i true m <;>
      simp [walkChain, walkNF, h]
  | cons a rest ih =>
    intro typ
    have hne : (rest ++ [i]).isEmpty = false := by simp
    cases h : getMethod env typ a false m with
    | none =>
      simp only [List.cons_append, walkChain, walkNF, List.append_eq, hne, h, Option.none_bind]
    | some t =>
      simp only [List.cons_append, walkChain, walkNF, List.append_eq, hne, h]
      exact ih t

/-- getMethod ignores its final flag when the method flag is false: the
source only consults final through the conjunction final and method. -/
theorem getMethod_false_final (env : Env) (i : Nat) (f : Bool) :
    ∀ t : Ty, getMethod env t i f false = getMethod env t i false false := by
  intro t
  induction t with
  | ptr t ih => simp only [getMethod]; exact ih
  | named n => simp only [getMethod, Bool.and_false]
  | strucOf n => rfl
  | ifaceOf n => rfl
  | basic b => rfl
  | sig0 => rfl
  | sigR r _ => rfl
  | other => rfl

/-- walkChain with the method flag false coincides with the non-final
walk, since only the final-and-method conjunction reads the flag. -/
theorem walkChain_false_eq_walkNF (env : Env) :
    ∀ (l : List Nat) (typ : Ty), walkChain env false typ l = walkNF env false typ l := by
  intro l
  induction l with
  | nil => intro typ; rfl
  | cons i rest ih =>
    intro typ
    simp only [walkChain, walkNF, getMethod_false_final env i rest.isEmpty]
    cases getMethod env typ i false false with
    | none => rfl
    | some t => exact ih t

/-!
Claim theorems.
-/

/-- Claim C1: a member access resolving a method declared on an
interface yields that declaring interface as Container, never an
intermediate embedding type. The first conjunct is general: whenever
the non-final hops of a method selection's index path lead (through any
chain of embedded struct fields and interfaces) to a named type n whose
underlying interface lists, at the final index, a method whose recorded
receiver is the named interface l, the query answers with l's package,
l's name as Container, and the accessed name — independently of n and
of the chain walked. The remaining conjuncts are the four concrete
selections of the claim, on the test package: resolving M11 (declared
on L, embedded in I, embedded in P, embedded in T) through receivers
ptr T, T, I and L all yields Container L. -/
theorem promoted_method_container_is_declaring_interface :
    (∀ (env : Env) (nodes : List PNode) (tb : Tables) (obj : Obj) (recv : Ty)
      (pre : List Nat) (i n l : Nat) (d dl : NamedDef) (ms : List IMethod)
      (mm : IMethod) (mname : String),
      importSpecAt1 nodes = none →
      identAndSel nodes = some (mname, true) →
      tb.defObj = none →
      tb.useObj = some obj →
      obj.isField = false →
      obj.pkgNamePath = none →
      tb.selection = some ⟨.methodVal, recv, pre ++ [i]⟩ →
      tb.memberFound = true →
      walkNF env true recv pre = some (.named n) →
      env.get? n = some d →
      d.under = .iface ms →
      ms.get? i = some mm →
      mm.recv = .named l →
      env.get? l = some dl →
      dl.topLevel = true →
      resolveQuery env nodes tb = some ⟨dl.pkg, dl.name, mname⟩) ∧
    resolveQuery pEnv (selNodesFor "M11")
      (tbUseSel objM11 ⟨.methodVal, .ptr (.named 0), [2, 0, 0]⟩) = some ⟨"p", "L", "M11"⟩ ∧
    resolveQuery pEnv (selNodesFor "M11")
      (tbUseSel objM11 ⟨.methodVal, .named 0, [2, 0, 0]⟩) = some ⟨"p", "L", "M11"⟩ ∧
    resolveQuery pEnv (selNodesFor "M11")
      (tbUseSel objM11 ⟨.methodVal, .named 3, [0]⟩) = some ⟨"p", "L", "M11"⟩ ∧
    resolveQuery pEnv (selNodesFor "M11")
      (tbUseSel objM11 ⟨.methodVal, .named 6, [0]⟩) = some ⟨"p", "L", "M11"⟩ := by
  refine ⟨?_, by decide, by decide, by decide, by decide⟩
  intro env nodes tb obj recv pre i n l d dl ms mm mname
  intro h1 h2 h3 h4 h5 h6 h7 h8 h9 h10 h11 h12 h13 h14 h15
  have hu : underlyingTy env n = .ifaceOf n := by
    unfold underlyingTy
    rw [h10]
    dsimp only
    rw [h11]
  have hmeth : ifaceMethodAt env n i = some mm := by
    unfold ifaceMethodAt
    rw [h10]
    dsimp only
    rw [h11]
    dsimp only
    exact h12
  have hget : getMethod env (.named n) i true true = some (.named l) := by
    rw [getMethod, hu]
    show (match ifaceMethodAt env n i with
      | some mm => if mm.recv = Ty.ifaceOf n then some (Ty.named n) else some mm.recv
      | none => none) = some (Ty.named l)
    rw [hmeth]
    dsimp only
    rw [h13]
    simp
  have hdeep : deepRecvType env ⟨.methodVal, recv, pre ++ [i]⟩ = some (.named l) := by
    show walkChain env true recv ((pre ++ [i]).take ((pre ++ [i]).length - 0)) =
      some (Ty.named l)
    rw [Nat.sub_zero, List.take_length, walkChain_append_last, h9, Option.some_bind, hget]
  unfold resolveQuery
  rw [h1, h2, h3, h4]
  show resolveUseObj env nodes mname true tb obj = some ⟨dl.pkg, dl.name, mname⟩
  unfold resolveUseObj structLitResult
  rw [h5, h6, h7]
  simp only [Bool.false_eq_true, Bool.not_true, if_false]
  rw [hdeep]
  dsimp only [Option.map, dereferenceType]
  rw [h14]
  dsimp only
  rw [h15, h8]
  rfl

/-- Witness for C1: the general conjunct instantiated at the concrete
selection of M12 on a T receiver (index path through the embedded *P
field and the embedded interface I to L's second method). -/
theorem promoted_method_container_witness :
    resolveQuery pEnv (selNodesFor "M12")
      (tbUseSel ⟨"p", "M12", .sigR (.named 6), false, false, none⟩
        ⟨.methodVal, .named 0, [2, 0, 1]⟩) = some ⟨"p", "L", "M12"⟩ :=
  promoted_method_container_is_declaring_interface.1 pEnv (selNodesFor "M12")
    (tbUseSel ⟨"p", "M12", .sigR (.named 6), false, false, none⟩
      ⟨.methodVal, .named 0, [2, 0, 1]⟩)
    ⟨"p", "M12", .sigR (.named 6), false, false, none⟩ (.named 0) [2, 0] 1 3 6
    ⟨"I", "p", true,
      .iface [⟨"M11", .named 6⟩, ⟨"M12", .named 6⟩, ⟨"M8", .named 3⟩, ⟨"M9", .named 4⟩], []⟩
    ⟨"L", "p", true, .iface [⟨"M11", .named 6⟩, ⟨"M12", .named 6⟩], []⟩
    [⟨"M11", .named 6⟩, ⟨"M12", .named 6⟩, ⟨"M8", .named 3⟩, ⟨"M9", .named 4⟩]
    ⟨"M12", .named 6⟩ "M12"
    (by decide) (by decide) (by decide) (by decide) (by decide) (by decide) (by decide)
    (by decide) (by decide) (by decide) (by decide) (by decide) (by decide) (by decide)
    (by decide)

/-- Claim C2: a field access with a non-empty embedding index path
names the struct that owns the field (the type indexed at the final
hop, after pointer dereference) as Container, and the descriptor is the
same for a value receiver and a pointer receiver. The first conjunct is
general and states the owner-container property for every environment,
receiver and chain: for a field selection whose non-empty index path
splits into the walked prefix and the final field index, whenever the
non-final walk of the prefix reaches a type that dereferences to a
top-level named type — the type the final hop indexes — the query
answers that type's package and name as Container with the accessed
name, regardless of the chain and of the field's own type. The second
conjunct is the general pointer/value transparency: the dereferenced
deep receiver computed from a pointer-to-named receiver equals the one
computed from the named receiver itself, for any non-empty index path,
so the owner named type — and with it the whole descriptor — cannot
differ between the two receiver forms. The remaining conjuncts resolve
(ptr T).F1, (T).F1 to Container S and (ptr T).F2, (T).F2 to Container
P on the test package — the owner struct, not the field's own type
int. -/
theorem embedded_field_owner_pointer_transparency :
    (∀ (env : Env) (nodes : List PNode) (tb : Tables) (obj : Obj) (recv u : Ty)
      (pre : List Nat) (i n : Nat) (d : NamedDef) (mname : String),
      importSpecAt1 nodes = none →
      identAndSel nodes = some (mname, true) →
      tb.defObj = none →
      tb.useObj = some obj →
      structLitResult nodes obj = none →
      obj.pkgNamePath = none →
      tb.selection = some ⟨.fieldVal, recv, pre ++ [i]⟩ →
      tb.memberFound = true →
      walkNF env false recv pre = some u →
      dereferenceType u = .named n →
      env.get? n = some d →
      d.topLevel = true →
      resolveQuery env nodes tb = some ⟨d.pkg, d.name, mname⟩) ∧
    (∀ (env : Env) (n i : Nat) (idx : List Nat),
      (deepRecvType env ⟨.fieldVal, .ptr (.named n), i :: idx⟩).map dereferenceType =
        (deepRecvType env ⟨.fieldVal, .named n, i :: idx⟩).map dereferenceType) ∧
    resolveQuery pEnv (selNodesFor "F1")
      (tbUseSel objF1 ⟨.fieldVal, .ptr (.named 0), [1, 0]⟩) = some ⟨"p", "S", "F1"⟩ ∧
    resolveQuery pEnv (selNodesFor "F1")
      (tbUseSel objF1 ⟨.fieldVal, .named 0, [1, 0]⟩) = some ⟨"p", "S", "F1"⟩ ∧
    resolveQuery pEnv (selNodesFor "F2")
      (tbUseSel objF2 ⟨.fieldVal, .ptr (.named 0), [2, 1]⟩) = some ⟨"p", "P", "F2"⟩ ∧
    resolveQuery pEnv (selNodesFor "F2")
      (tbUseSel objF2 ⟨.fieldVal, .named 0, [2, 1]⟩) = some ⟨"p", "P", "F2"⟩ := by
  refine ⟨?_, ?_, by decide, by decide, by decide, by decide⟩
  · intro env nodes tb obj recv u pre i n d mname
    intro h1 h2 h3 h4 h5 h6 h7 h8 h9 h10 h11 h12
    have hdeep : deepRecvType env ⟨.fieldVal, recv, pre ++ [i]⟩ = some u := by
      show walkChain env false recv ((pre ++ [i]).take ((pre ++ [i]).length - 1)) = some u
      have hlen : (pre ++ [i]).length - 1 = pre.length := by simp
      rw [hlen, List.take_left, walkChain_false_eq_walkNF]
      exact h9
    unfold resolveQuery
    rw [h1, h2, h3, h4]
    show resolveUseObj env nodes mname true tb obj = some ⟨d.pkg, d.name, mname⟩
    unfold resolveUseObj
    rw [h5, h6, h7]
    simp only [Bool.not_true, Bool.false_eq_true, if_false]
    rw [hdeep]
    dsimp only [Option.map]
    rw [h10]
    dsimp only
    rw [h11]
    dsimp only
    rw [h12, h8]
    rfl
  · intro env n i idx
    cases idx <;> rfl

/-- Witness for C2: the general owner-container conjunct instantiated
at the direct field F0 of T — prefix walk empty, final index 0 into
T's fields — yielding Container T, as the repository test expects. -/
theorem embedded_field_owner_pointer_transparency_witness :
    resolveQuery pEnv (selNodesFor "F0")
      (tbUseSel ⟨"p", "F0", .basic "int", false, true, none⟩
        ⟨.fieldVal, .named 0, [0]⟩) = some ⟨"p", "T", "F0"⟩ :=
  embedded_field_owner_pointer_transparency.1 pEnv (selNodesFor "F0")
    (tbUseSel ⟨"p", "F0", .basic "int", false, true, none⟩ ⟨.fieldVal, .named 0, [0]⟩)
    ⟨"p", "F0", .basic "int", false, true, none⟩ (.named 0) (.named 0) [] 0 0
    ⟨"T", "p", true,
      .struc [⟨"F0", .basic "int"⟩, ⟨"S", .named 1⟩, ⟨"P", .ptr (.named 2)⟩, ⟨"K", .named 5⟩],
      [⟨"M0", .named 0⟩, ⟨"M1", .ptr (.named 0)⟩, ⟨"M2", .named 0⟩,
        ⟨"M3", .ptr (.named 0)⟩, ⟨"M4", .named 0⟩, ⟨"M5", .ptr (.named 0)⟩]⟩
    "F0"
    (by decide) (by decide) (by decide) (by decide) (by decide) (by decide) (by decide)
    (by decide) (by decide) (by decide) (by decide) (by decide)

/-- Counterexample to claim C3: a used symbol found in neither scope
whose dereferenced type is neither named nor basic. The claim says the
query degrades to describing the symbol by its own package and name
(here, the descriptor with Package p and Name x); the code instead
exits fatally, so the query yields no descriptor at all. -/
theorem use_type_fallback_is_fatal_cex :
    resolveQuery [] [.ident "x", .file]
      (tbUseNoSel ⟨"p", "x", .other, false, false, none⟩ false false) = none ∧
    resolveQuery [] [.ident "x", .file]
      (tbUseNoSel ⟨"p", "x", .other, false, false, none⟩ false false) ≠
      some (out2 "p" "x") := by
  refine ⟨by decide, by decide⟩

/-- Claim C3 as amended: in the uses case with no enclosing selector,
when the symbol is in neither the package top scope nor the universe
scope and dereferencing its declared type yields neither a named type
nor a predeclared basic type, resolution fails (the source exits
fatally with not a package-level definition) — it does not degrade to
describing the symbol by its own package and name. -/
theorem use_type_fallback_is_fatal (env : Env) (nodes : List PNode) (tb : Tables)
    (obj : Obj) (nm : String)
    (h1 : importSpecAt1 nodes = none)
    (h2 : identAndSel nodes = some (nm, false))
    (h3 : tb.defObj = none)
    (h4 : tb.useObj = some obj)
    (h5 : structLitResult nodes obj = none)
    (h6 : obj.pkgNamePath = none)
    (h7 : tb.inPkgScope = false)
    (h8 : tb.inUniverse = false)
    (h9 : typeName env (dereferenceType obj.ty) = none) :
    resolveQuery env nodes tb = none := by
  unfold resolveQuery
  rw [h1, h2, h3, h4]
  show resolveUseObj env nodes nm false tb obj = none
  unfold resolveUseObj
  rw [h5, h6, h7, h8]
  simp only [Bool.not_false, if_true, Bool.false_eq_true, if_false]
  rw [h9]

/-- Witness for the amended C3: a used symbol of signature type (a
local function value), in no scope, fails rather than degrading. -/
theorem use_type_fallback_is_fatal_witness :
    resolveQuery [] [.ident "y", .file]
      (tbUseNoSel ⟨"q", "y", .sig0, false, false, none⟩ false false) = none :=
  use_type_fallback_is_fatal [] [.ident "y", .file]
    (tbUseNoSel ⟨"q", "y", .sig0, false, false, none⟩ false false)
    ⟨"q", "y", .sig0, false, false, none⟩ "y"
    (by decide) (by decide) (by decide) (by decide) (by decide) (by decide) (by decide)
    (by decide) (by decide)

/-- Counterexample to claim C4: the identifier of a field X declared in
a struct nested inside the struct of type declaration T (path: ident,
field, field list, inner struct, field, field list, outer struct, type
spec T). The claim says Container is the enclosing type declaration's
name T regardless of nesting depth; the code checks the fixed path
positions one and four, misses, and falls through to the type fallback,
answering the field's own type builtin int with empty Container. -/
theorem nested_field_container_cex :
    resolveQuery []
      [.ident "X", .field, .fieldList, .structType, .field, .fieldList, .structType,
        .typeSpec "T", .genDecl, .file]
      (tbDef ⟨"p", "X", .basic "int", false, true, none⟩) = some ⟨"builtin", "", "int"⟩ ∧
    resolveQuery []
      [.ident "X", .field, .fieldList, .structType, .field, .fieldList, .structType,
        .typeSpec "T", .genDecl, .file]
      (tbDef ⟨"p", "X", .basic "int", false, true, none⟩) ≠ some ⟨"p", "T", "X"⟩ := by
  refine ⟨by decide, by decide⟩

/-- Claim C4 as amended: a defining identifier that is not
package-scoped and not of signature type resolves to the enclosing
type declaration's name as Container exactly when its field list
belongs directly to the type declaration — the identifier's parent node
is a field and the fifth node on the path is the type spec. Fields in
more deeply nested field lists fall through to the type fallback
instead. -/
theorem direct_struct_field_container (env : Env) (nodes : List PNode) (tb : Tables)
    (obj : Obj) (nm tn : String)
    (h0 : nodes.get? 0 = some (.ident nm))
    (h1 : nodes.get? 1 = some .field)
    (h4 : nodes.get? 4 = some (.typeSpec tn))
    (h2 : tb.defObj = some obj)
    (h3 : obj.ty.isSig = false)
    (h5 : obj.parentIsPkgScope = false) :
    resolveQuery env nodes tb = some ⟨obj.pkg, tn, obj.name⟩ := by
  have himp : importSpecAt1 nodes = none := by
    unfold importSpecAt1
    rw [h1]
    simp
  have hid : identAndSel nodes = some (nm, false) := by
    unfold identAndSel
    rw [h0, h1]
  unfold resolveQuery
  rw [himp, hid, h2]
  show resolveDefObj env nodes nm obj = some ⟨obj.pkg, tn, obj.name⟩
  unfold resolveDefObj
  cases hty : obj.ty with
  | sig0 => rw [hty] at h3; exact absurd h3 (by simp [Ty.isSig])
  | sigR r => rw [hty] at h3; exact absurd h3 (by simp [Ty.isSig])
  | ptr t => rw [h5, h1, h4]; rfl
  | named m => rw [h5, h1, h4]; rfl
  | strucOf m => rw [h5, h1, h4]; rfl
  | ifaceOf m => rw [h5, h1, h4]; rfl
  | basic b => rw [h5, h1, h4]; rfl
  | other => rw [h5, h1, h4]; rfl

/-- Witness for the amended C4: the directly declared field F0 of T
resolves with Container T. -/
theorem direct_struct_field_container_witness :
    resolveQuery []
      [.ident "F0", .field, .fieldList, .structType, .typeSpec "T", .genDecl, .file]
      (tbDef ⟨"p", "F0", .basic "int", false, true, none⟩) = some ⟨"p", "T", "F0"⟩ :=
  direct_struct_field_container []
    [.ident "F0", .field, .fieldList, .structType, .typeSpec "T", .genDecl, .file]
    (tbDef ⟨"p", "F0", .basic "int", false, true, none⟩)
    ⟨"p", "F0", .basic "int", false, true, none⟩ "F0" "T"
    (by decide) (by decide) (by decide) (by decide) (by decide) (by decide)

/-- Claim C5: a method-definition identifier (a Definitions entry whose
type is a signature with a receiver) resolves to the receiver's named
type after one pointer dereference as Container; since the Container is
the name of the named type a pointer receiver dereferences to, it is
never a pointer-denoting variant, for value and pointer receivers
alike. -/
theorem method_def_container_is_deref_receiver (env : Env) (nodes : List PNode)
    (tb : Tables) (obj : Obj) (nm : String) (hs : Bool) (r : Ty) (n : Nat) (d : NamedDef)
    (h1 : importSpecAt1 nodes = none)
    (h2 : identAndSel nodes = some (nm, hs))
    (h3 : tb.defObj = some obj)
    (h4 : obj.ty = .sigR r)
    (h5 : dereferenceType r = .named n)
    (h6 : env.get? n = some d) :
    resolveQuery env nodes tb = some ⟨obj.pkg, d.name, nm⟩ := by
  unfold resolveQuery
  rw [h1, h2, h3]
  show resolveDefObj env nodes nm obj = some ⟨obj.pkg, d.name, nm⟩
  unfold resolveDefObj
  rw [h4]
  dsimp only
  rw [h5]
  dsimp only
  rw [h6]
  rfl

/-- Witness for C5: the pointer-receiver method M5 of T resolves with
Container T, not a pointer variant. -/
theorem method_def_container_is_deref_receiver_witness :
    resolveQuery pEnv [.ident "M5", .other, .other, .file]
      (tbDef ⟨"p", "M5", .sigR (.ptr (.named 0)), false, false, none⟩) =
      some ⟨"p", "T", "M5"⟩ :=
  method_def_container_is_deref_receiver pEnv [.ident "M5", .other, .other, .file]
    (tbDef ⟨"p", "M5", .sigR (.ptr (.named 0)), false, false, none⟩)
    ⟨"p", "M5", .sigR (.ptr (.named 0)), false, false, none⟩ "M5" false (.ptr (.named 0)) 0
    ⟨"T", "p", true,
      .struc [⟨"F0", .basic "int"⟩, ⟨"S", .named 1⟩, ⟨"P", .ptr (.named 2)⟩, ⟨"K", .named 5⟩],
      [⟨"M0", .named 0⟩, ⟨"M1", .ptr (.named 0)⟩, ⟨"M2", .named 0⟩,
        ⟨"M3", .ptr (.named 0)⟩, ⟨"M4", .named 0⟩, ⟨"M5", .ptr (.named 0)⟩]⟩
    (by decide) (by decide) (by decide) (by decide) (by decide) (by decide)

/-- Claim C6: a node path passing through an import declaration (its
second node an import spec, with more than two nodes, which is the
shape of every offset inside the quoted path literal) resolves to a
descriptor whose Package is the unquoted import path and whose Name
and Container are empty; an unparsable literal yields the failure. The
second and third conjuncts evaluate the two outcomes concretely: a
well-formed literal produces the bare-package descriptor, a literal
missing its closing quote produces none. -/
theorem import_spec_descriptor :
    (∀ (env : Env) (nodes : List PNode) (tb : Tables) (lit : String),
      importSpecAt1 nodes = some lit →
      resolveQuery env nodes tb = (gounquote lit).map out1) ∧
    resolveQuery [] [.other, .importSpec "\"net/http\"", .genDecl, .file] tbEmpty =
      some ⟨"net/http", "", ""⟩ ∧
    resolveQuery [] [.other, .importSpec "\"net/http", .genDecl, .file] tbEmpty = none := by
  refine ⟨?_, by decide, by decide⟩
  intro env nodes tb lit h
  unfold resolveQuery
  rw [h]

/-- Witness for C6: the general conjunct instantiated at a path with
an import spec holding the quoted literal of the fmt package. -/
theorem import_spec_descriptor_witness :
    resolveQuery [] [.other, .importSpec "\"fmt\"", .genDecl, .file] tbEmpty =
      some ⟨"fmt", "", ""⟩ :=
  (import_spec_descriptor.1 [] [.other, .importSpec "\"fmt\"", .genDecl, .file] tbEmpty
    "\"fmt\"" (by decide)).trans (by decide)

/-- Counterexample to claim C7: the locator's returned path is
innermost-first, not root-first. For the demo tree (a file node with
one composite child) and an interval inside the child, the path's first
element is the child, not the root, so the claim's clause that the
first element is the root fails. -/
theorem locator_path_head_not_root_cex :
    (pathEnclosingInterval demoRoot 3 3).1.head? = some demoChild ∧
    (pathEnclosingInterval demoRoot 3 3).1.head? ≠ some demoRoot := by
  refine ⟨rfl, ?_⟩
  intro h
  have hc : (pathEnclosingInterval demoRoot 3 3).1.head? = some demoChild := rfl
  rw [hc] at h
  have hp := congrArg (fun o => Option.map Tree.pos o) h
  simp [demoChild, demoRoot, Tree.pos] at hp

/-- Claim C7 as amended: the locator is total — for every tree and
every interval it returns a non-empty path whose last element is the
root (the path runs innermost node first, root last), with no failure
outcome; and when the interval lies entirely outside the root's
interval the result is exactly the root alone with the exact flag
false. -/
theorem locator_total_last_root (root : Tree) (a b : Int) :
    (pathEnclosingInterval root a b).1 ≠ [] ∧
    (pathEnclosingInterval root a b).1.getLast? = some root ∧
    (¬ ((if a > b then b else a) < root.endP ∧ (if a > b then a else b) > root.pos) →
      pathEnclosingInterval root a b = ([root], false)) := by
  unfold pathEnclosingInterval
  by_cases hc : (if a > b then b else a) < root.endP ∧ (if a > b then a else b) > root.pos
  · rw [if_pos hc]
    dsimp only
    refine ⟨?_, ?_, fun hn => absurd hc hn⟩
    · intro hnil
      rw [List.reverse_eq_nil_iff] at hnil
      have h := visit_head root (if a > b then b else a)
        (if (if a > b then b else a) = (if a > b then a else b) then (if a > b then b else a) + 1
          else (if a > b then a else b))
      rw [hnil] at h
      exact Option.noConfusion h
    · rw [List.getLast?_reverse]
      exact visit_head root _ _
  · rw [if_neg hc]
    exact ⟨by simp, rfl, fun _ => rfl⟩

/-- Witness for the amended C7: an interval wholly to the right of a
file node yields exactly the root alone, inexact. -/
theorem locator_total_last_root_witness :
    pathEnclosingInterval (Tree.mk 0 5 false .file []) 7 9 =
      ([Tree.mk 0 5 false .file []], false) :=
  (locator_total_last_root (Tree.mk 0 5 false .file []) 7 9).2.2 (by decide)

/-- Claim C8: boundary offsets resolve to the failure, never to a
nearby node. First conjunct: whenever the one-byte window at the offset
misses the file root's interval — which is the case one position past
the root's end (one byte past the end of the file) and at or before the
root's start (before the first declaration) — the whole query answers
none. Second conjunct: any query whose located path is the file node
alone answers none, whatever the tables say. Third conjunct: a query in
the whitespace gap between two declarations, which locates the file
node inexactly, answers none. -/
theorem boundary_offset_not_found :
    (∀ (env : Env) (root : Tree) (off : Int) (tb : Tables),
      root.kind = .file → ¬ (off < root.endP ∧ off > root.pos) →
      godefQuery env root off tb = none) ∧
    (∀ (env : Env) (tb : Tables), resolveQuery env [.file] tb = none) ∧
    godefQuery []
      (.mk 1 30 false .file [.mk 1 8 false .other [], .mk 15 29 false .other []])
      10 tbEmpty = none := by
  refine ⟨?_, fun env tb => rfl, rfl⟩
  intro env root off tb hk h
  have hp : pathEnclosingInterval root off off = ([root], false) := by
    unfold pathEnclosingInterval
    simp only [gt_iff_lt, lt_self_iff_false, ite_self]
    rw [if_neg h]
  unfold godefQuery
  rw [hp]
  simp only [List.map_cons, List.map_nil, hk]
  rfl

/-- Witness for C8: an offset equal to the file root's end (one byte
past the last position inside it) answers none. -/
theorem boundary_offset_not_found_witness :
    godefQuery [] (Tree.mk 1 50 false .file []) 50 tbEmpty = none :=
  boundary_offset_not_found.1 [] (Tree.mk 1 50 false .file []) 50 tbEmpty rfl (by decide)

/-- Claim C9: the source-import cache serves an entry only when it is
present and complete; an absent or incomplete entry causes the
from-source check to run, whose non-nil result overwrites the cache
entry. First conjunct: a complete cached entry is returned unchanged
with the cache untouched, regardless of what a fresh check would say.
Second conjunct: with no usable entry, the answer is exactly the fresh
check's result, stored under the key when non-nil — so a package served
from the cache (first conjunct) is always complete. -/
theorem cache_serves_only_complete :
    (∀ (chk : Option GoPkg) (cache : Cache) (key : ImpKey) (p : GoPkg),
      lookupCache cache key = some p → p.complete = true →
      importFrom none chk cache key = (some p, cache)) ∧
    (∀ (chk : Option GoPkg) (cache : Cache) (key : ImpKey),
      (lookupCache cache key = none ∨
        ∃ p, lookupCache cache key = some p ∧ p.complete = false) →
      importFrom none chk cache key =
        match chk with
        | some q => (some q, storeCache cache key q)
        | none => (none, cache)) := by
  constructor
  · intro chk cache key p hl hcomp
    unfold importFrom
    rw [hl]
    dsimp only
    simp [hcomp]
  · intro chk cache key hl
    unfold importFrom
    rcases hl with hl | ⟨p, hl, hcomp⟩
    · rw [hl]
    · rw [hl]
      dsimp only
      simp [hcomp]

/-- Witness for C9: a complete cached package is served unchanged even
though a different fresh result is available. -/
theorem cache_serves_only_complete_witness :
    importFrom none (some ⟨2, true⟩) [(("net/http", "d"), ⟨1, true⟩)] ("net/http", "d") =
      (some ⟨1, true⟩, [(("net/http", "d"), ⟨1, true⟩)]) :=
  cache_serves_only_complete.1 (some ⟨2, true⟩) [(("net/http", "d"), ⟨1, true⟩)]
    ("net/http", "d") ⟨1, true⟩ (by decide) (by decide)

/-- Claim C10: the locator is symmetric in its interval endpoints — a
reversed interval is normalised by the swap before the search begins,
so locating with the endpoints exchanged returns the same path and the
same exactness flag. -/
theorem locator_endpoint_symmetry (root : Tree) (a b : Int) :
    pathEnclosingInterval root a b = pathEnclosingInterval root b a := by
  have h1 : (if a > b then b else a) = (if b > a then a else b) := by
    rcases lt_trichotomy a b with h | h | h
    · rw [if_neg (not_lt.2 h.le), if_pos h]
    · subst h; rfl
    · rw [if_pos h, if_neg (not_lt.2 h.le)]
  have h2 : (if a > b then a else b) = (if b > a then b else a) := by
    rcases lt_trichotomy a b with h | h | h
    · rw [if_neg (not_lt.2 h.le), if_pos h]
    · subst h; rfl
    · rw [if_pos h, if_neg (not_lt.2 h.le)]
  unfold pathEnclosingInterval
  rw [h1, h2]

end Godefinfo
